import Mathlib

/-!
Verification of the task-manager backend (Express + Mongoose task API).

The definitions below are a shallow embedding of the JavaScript source:

* `src/backend/server.js` — route handlers and the `DatabaseUtils` class
  (`buildFilterOptions`, `buildSortOptions`, `buildPaginationOptions`,
  `executePaginatedQuery`, `handleDatabaseError`, bulk operations);
* `src/unnamed/part_001` — the Mongoose `Task` schema: field definitions,
  `pre('save')` / `pre(['updateOne','findOneAndUpdate'])` middleware,
  `toJSON` options and virtual properties.

JavaScript values that flow through the filter utilities are modelled by the
inductive `JSVal`; JS `NaN` for the pagination numbers is modelled by `none`
in `Option Int`.  Mongoose/Mongo themselves are treated as a black box: a
store is a list of task documents, and a query is the evaluation of the
corresponding predicate on that list.
-/

namespace TaskApp

/-! ## JavaScript values -/

/-- A JavaScript value as it appears in `req.query` / `req.body` and inside
the filter objects built by `DatabaseUtils.buildFilterOptions`.
`vDate a` stands for the object `new Date(a)`. -/
inductive JSVal where
  | vNull
  | vUndef
  | vBool (b : Bool)
  | vNum (n : Int)
  | vStr (s : String)
  | vDate (arg : JSVal)
  | vArr (elts : List JSVal)

/-- JavaScript truthiness of a `JSVal` (`Boolean(v)`); array and date objects
are always truthy. -/
def jsTruthy : JSVal → Bool
  | .vNull => false
  | .vUndef => false
  | .vBool b => b
  | .vNum n => decide (n ≠ 0)
  | .vStr s => decide (s ≠ "")
  | .vDate _ => true
  | .vArr _ => true

/-- The skip test at the top of the `buildFilterOptions` loop:
`value === null || value === undefined || value === ''`. -/
def jsSkipValue : JSVal → Bool
  | .vNull => true
  | .vUndef => true
  | .vStr s => decide (s = "")
  | _ => false

/-- An input mapping of request parameters (a plain JS object, keys unique
and iterated in insertion order by `Object.keys(...).forEach`). -/
abbrev InMap := List (String × JSVal)

/-- Property read on an input object (`filters[key]`); `none` is
`undefined`. -/
def inLookup : InMap → String → Option JSVal
  | [], _ => none
  | (k, v) :: rest, key => if k = key then some v else inLookup rest key

/-- Truthiness of `filters.key` (an absent key reads as `undefined`). -/
def inTruthy (m : InMap) (key : String) : Bool :=
  match inLookup m key with
  | some v => jsTruthy v
  | none => false

/-! ## Filter objects -/

/-- A value stored in the Mongo filter object built by `buildFilterOptions`:
an exact-match value, an `$in` list, the literal `{ $ne: true }` clause, a
`$gte`/`$lte` range object, or a `$text : { $search : _ }` object. -/
inductive FVal where
  | exact (v : JSVal)
  | inList (vs : List JSVal)
  | neTrue
  | range (gte lte : Option JSVal)
  | textSearch (v : JSVal)

/-- The filter object under construction (a JS object: unique keys, ordered;
assigning to an existing key overwrites its value in place). -/
abbrev ObjMap := List (String × FVal)

/-- Property read on a filter object. -/
def objLookup : ObjMap → String → Option FVal
  | [], _ => none
  | (k, v) :: rest, key => if k = key then some v else objLookup rest key

/-- Property assignment `obj[key] = v` on a JS object: overwrite the value
if the key exists (keeping its position), otherwise append. -/
def objInsert : ObjMap → String → FVal → ObjMap
  | [], key, v => [(key, v)]
  | (k1, v1) :: rest, key, v =>
    if k1 = key then (key, v) :: rest else (k1, v1) :: objInsert rest key v

/-- JS object truthiness of a filter value: only a primitive exact-match
value can be falsy; `$in`/range/`$text`/`$ne` clauses are objects, hence
truthy. -/
def fvalTruthy : FVal → Bool
  | .exact v => jsTruthy v
  | _ => true

/-- `dueDateFrom`/`createdFrom` handling:
`if (!mongoFilters[k]) mongoFilters[k] = {}; mongoFilters[k].$gte = v`.
Setting a property on a truthy non-object (a primitive) is a silent no-op
in non-strict JS, which is the `exact`/`inList`/… fall-through case. -/
def setRangeGte (m : ObjMap) (key : String) (v : JSVal) : ObjMap :=
  match objLookup m key with
  | none => objInsert m key (.range (some v) none)
  | some fv =>
    if fvalTruthy fv then
      match fv with
      | .range _ lte => objInsert m key (.range (some v) lte)
      | _ => m
    else objInsert m key (.range (some v) none)

/-- `dueDateTo`/`createdTo` handling (sets `$lte`, see `setRangeGte`). -/
def setRangeLte (m : ObjMap) (key : String) (v : JSVal) : ObjMap :=
  match objLookup m key with
  | none => objInsert m key (.range none (some v))
  | some fv =>
    if fvalTruthy fv then
      match fv with
      | .range gte _ => objInsert m key (.range gte (some v))
      | _ => m
    else objInsert m key (.range none (some v))

/-- The strict-equality test `value === 'true' || value === true` used by
the `completed` branch of the loop. -/
def isTrueLiteral : JSVal → Bool
  | .vStr s => decide (s = "true")
  | .vBool b => b
  | _ => false

/-- One iteration of the `Object.keys(filters).forEach` loop in
`DatabaseUtils.buildFilterOptions` (server.js lines 443-498). -/
def processEntry (acc : ObjMap) (entry : String × JSVal) : ObjMap :=
  let key := entry.1
  let value := entry.2
  if jsSkipValue value then acc
  else if key = "completed" then
    objInsert acc "completed" (.exact (.vBool (isTrueLiteral value)))
  else if key = "priority" then
    objInsert acc "priority"
      (match value with
       | .vArr vs => .inList vs
       | v => .exact v)
  else if key = "tags" then
    objInsert acc "tags"
      (match value with
       | .vArr vs => .inList vs
       | v => .exact v)
  else if key = "dueDateFrom" then setRangeGte acc "dueDate" (.vDate value)
  else if key = "dueDateTo" then setRangeLte acc "dueDate" (.vDate value)
  else if key = "createdFrom" then setRangeGte acc "createdAt" (.vDate value)
  else if key = "createdTo" then setRangeLte acc "createdAt" (.vDate value)
  else if key = "search" then objInsert acc "$text" (.textSearch value)
  else objInsert acc key (.exact value)

/-- The whole `forEach` loop over the input mapping. -/
def processFilters (filters : InMap) : ObjMap :=
  filters.foldl processEntry []

/-- `DatabaseUtils.buildFilterOptions` (server.js lines 439-506): run the
recognition loop, then, unless `filters.includeDeleted` is truthy, assign
`mongoFilters.isDeleted = { $ne: true }` as the final step. -/
def buildFilterOptions (filters : InMap) : ObjMap :=
  let mongoFilters := processFilters filters
  if inTruthy filters "includeDeleted" then mongoFilters
  else objInsert mongoFilters "isDeleted" .neTrue

/-! ### Object-map lemmas -/

theorem objLookup_objInsert_self (m : ObjMap) (key : String) (v : FVal) :
    objLookup (objInsert m key v) key = some v := by
  induction m with
  | nil => simp [objInsert, objLookup]
  | cons p rest ih =>
    obtain ⟨k1, v1⟩ := p
    by_cases h : k1 = key
    · simp [objInsert, objLookup, h]
    · simp [objInsert, objLookup, h, ih]

theorem objLookup_objInsert_ne (m : ObjMap) (key : String) (v : FVal)
    (q : String) (h : q ≠ key) :
    objLookup (objInsert m key v) q = objLookup m q := by
  have h' : ¬key = q := fun hh => h hh.symm
  induction m with
  | nil => simp [objInsert, objLookup, h']
  | cons p rest ih =>
    obtain ⟨k1, v1⟩ := p
    by_cases hk : k1 = key
    · subst hk
      simp [objInsert, objLookup, h']
    · simp [objInsert, objLookup, hk, ih]

theorem objLookup_setRangeGte_ne (m : ObjMap) (key : String) (v : JSVal)
    (q : String) (h : q ≠ key) :
    objLookup (setRangeGte m key v) q = objLookup m q := by
  unfold setRangeGte
  cases objLookup m key with
  | none => exact objLookup_objInsert_ne m key _ q h
  | some fv =>
    by_cases ht : fvalTruthy fv
    · simp only [ht, if_true]
      cases fv <;> first
        | exact objLookup_objInsert_ne m key _ q h
        | rfl
    · simp only [ht, Bool.false_eq_true, if_false]
      exact objLookup_objInsert_ne m key _ q h

theorem objLookup_setRangeLte_ne (m : ObjMap) (key : String) (v : JSVal)
    (q : String) (h : q ≠ key) :
    objLookup (setRangeLte m key v) q = objLookup m q := by
  unfold setRangeLte
  cases objLookup m key with
  | none => exact objLookup_objInsert_ne m key _ q h
  | some fv =>
    by_cases ht : fvalTruthy fv
    · simp only [ht, if_true]
      cases fv <;> first
        | exact objLookup_objInsert_ne m key _ q h
        | rfl
    · simp only [ht, Bool.false_eq_true, if_false]
      exact objLookup_objInsert_ne m key _ q h

/-- A loop iteration for an entry whose key is not `"includeDeleted"` never
touches the `"includeDeleted"` key of the accumulator. -/
theorem processEntry_lookup_includeDeleted (acc : ObjMap) (k : String)
    (v : JSVal) (h : k ≠ "includeDeleted") :
    objLookup (processEntry acc (k, v)) "includeDeleted" =
      objLookup acc "includeDeleted" := by
  unfold processEntry
  dsimp only
  split_ifs with h0 h1 h2 h3 h4 h5 h6 h7 h8
  · rfl
  · exact objLookup_objInsert_ne acc "completed" _ _ (by decide)
  · exact objLookup_objInsert_ne acc "priority" _ _ (by decide)
  · exact objLookup_objInsert_ne acc "tags" _ _ (by decide)
  · exact objLookup_setRangeGte_ne acc "dueDate" _ _ (by decide)
  · exact objLookup_setRangeLte_ne acc "dueDate" _ _ (by decide)
  · exact objLookup_setRangeGte_ne acc "createdAt" _ _ (by decide)
  · exact objLookup_setRangeLte_ne acc "createdAt" _ _ (by decide)
  · exact objLookup_objInsert_ne acc "$text" _ _ (by decide)
  · exact objLookup_objInsert_ne acc k _ _ (fun hh => h hh.symm)

/-- The recognition loop restricted to entries that do not mention
`"includeDeleted"` leaves that key of the accumulator unchanged. -/
theorem foldl_lookup_includeDeleted (l : InMap) (acc : ObjMap)
    (h : ∀ p ∈ l, p.1 ≠ "includeDeleted") :
    objLookup (l.foldl processEntry acc) "includeDeleted" =
      objLookup acc "includeDeleted" := by
  induction l generalizing acc with
  | nil => rfl
  | cons p rest ih =>
    obtain ⟨k, v⟩ := p
    rw [List.foldl_cons,
      ih _ (fun q hq => h q (List.mem_cons_of_mem _ hq)),
      processEntry_lookup_includeDeleted acc k v (h (k, v) (List.mem_cons_self _ _))]

/-- A truthy JS value never triggers the null/undefined/empty-string skip. -/
theorem jsTruthy_not_skipped (v : JSVal) (h : jsTruthy v = true) :
    jsSkipValue v = false := by
  cases v <;> simp_all [jsTruthy, jsSkipValue]

/-- The default (pass-through) branch of the loop body. -/
theorem processEntry_default (acc : ObjMap) (k : String) (v : JSVal)
    (hskip : jsSkipValue v = false)
    (h1 : ¬k = "completed") (h2 : ¬k = "priority") (h3 : ¬k = "tags")
    (h4 : ¬k = "dueDateFrom") (h5 : ¬k = "dueDateTo")
    (h6 : ¬k = "createdFrom") (h7 : ¬k = "createdTo")
    (h8 : ¬k = "search") :
    processEntry acc (k, v) = objInsert acc k (.exact v) := by
  unfold processEntry
  dsimp only
  rw [if_neg (by simp [hskip]), if_neg h1, if_neg h2, if_neg h3, if_neg h4,
    if_neg h5, if_neg h6, if_neg h7, if_neg h8]

/-- In a mapping with unique keys whose `includeDeleted` key holds a truthy
value, the loop inserts that value as an exact-match clause. -/
theorem processFilters_includeDeleted_exact (v : JSVal)
    (ht : jsTruthy v = true) :
    ∀ (m : InMap) (acc : ObjMap), (m.map Prod.fst).Nodup →
      inLookup m "includeDeleted" = some v →
      objLookup (m.foldl processEntry acc) "includeDeleted" =
        some (FVal.exact v) := by
  intro m
  induction m with
  | nil =>
    intro acc hnd hv
    simp [inLookup] at hv
  | cons p rest ih =>
    intro acc hnd hv
    obtain ⟨k, w⟩ := p
    by_cases hk : k = "includeDeleted"
    · subst hk
      have hwv : w = v := by simpa [inLookup] using hv
      subst hwv
      have hrest : ∀ q ∈ rest, q.1 ≠ "includeDeleted" := by
        intro q hq heq
        have hnotin : "includeDeleted" ∉ rest.map Prod.fst :=
          (List.nodup_cons.mp (by simpa using hnd)).1
        exact hnotin (heq ▸ List.mem_map_of_mem Prod.fst hq)
      rw [List.foldl_cons, foldl_lookup_includeDeleted rest _ hrest,
        processEntry_default acc _ _ (jsTruthy_not_skipped w ht)
          (by decide) (by decide) (by decide) (by decide) (by decide)
          (by decide) (by decide) (by decide),
        objLookup_objInsert_self]
    · have hv' : inLookup rest "includeDeleted" = some v := by
        simpa [inLookup, hk] using hv
      have hnd' : (rest.map Prod.fst).Nodup :=
        (List.nodup_cons.mp (by simpa using hnd)).2
      rw [List.foldl_cons]
      exact ih _ hnd' hv'

/-! ## Claim C4 -/

/-- Claim C4: for every input mapping without a truthy `includeDeleted`
flag, the filter returned by `buildFilterOptions` carries
`isDeleted = { $ne: true }` (the final assignment overwrites any
user-supplied `isDeleted` value); with a truthy `includeDeleted` flag the
override is omitted and the loop result is returned as-is. -/
theorem buildFilterOptions_isDeleted_override (m : InMap) :
    (inTruthy m "includeDeleted" = false →
      objLookup (buildFilterOptions m) "isDeleted" = some FVal.neTrue) ∧
    (inTruthy m "includeDeleted" = true →
      buildFilterOptions m = processFilters m) := by
  constructor
  · intro h
    unfold buildFilterOptions
    rw [h]
    simpa using objLookup_objInsert_self (processFilters m) "isDeleted" .neTrue
  · intro h
    unfold buildFilterOptions
    rw [h]
    simp

/-- Witness for C4 at a concrete input that even carries a user-supplied
`isDeleted` key: the override still lands. -/
theorem buildFilterOptions_isDeleted_override_witness :
    objLookup (buildFilterOptions [("isDeleted", JSVal.vStr "false")])
      "isDeleted" = some FVal.neTrue :=
  (buildFilterOptions_isDeleted_override
    [("isDeleted", JSVal.vStr "false")]).1 (by decide)

/-! ## Claim C8 -/

/-- Counterexample to claim C8 as stated: `includeDeleted: false` is a
non-null, non-empty value (it passes the loop's skip test), yet the
`isDeleted ≠ true` clause is NOT omitted — `!filters.includeDeleted` is
true for the boolean `false` — while the key is still passed through into
the filter. -/
theorem includeDeleted_false_counterexample :
    jsSkipValue (JSVal.vBool false) = false ∧
    objLookup (buildFilterOptions [("includeDeleted", JSVal.vBool false)])
      "isDeleted" = some FVal.neTrue ∧
    objLookup (buildFilterOptions [("includeDeleted", JSVal.vBool false)])
      "includeDeleted" = some (FVal.exact (JSVal.vBool false)) :=
  ⟨rfl, rfl, rfl⟩

/-- Claim C8 (amended): for every input mapping with unique keys in which
`includeDeleted` is bound to a truthy value, `buildFilterOptions` omits the
`isDeleted ≠ true` override (the loop result is returned unchanged) and the
unrecognized-key pass-through inserts `includeDeleted` itself into the
filter as an exact-match clause. -/
theorem truthy_includeDeleted_passthrough (m : InMap) (v : JSVal)
    (hnd : (m.map Prod.fst).Nodup)
    (hv : inLookup m "includeDeleted" = some v)
    (ht : jsTruthy v = true) :
    buildFilterOptions m = processFilters m ∧
    objLookup (buildFilterOptions m) "includeDeleted" =
      some (FVal.exact v) := by
  have htr : inTruthy m "includeDeleted" = true := by
    unfold inTruthy
    rw [hv]
    exact ht
  have hb : buildFilterOptions m = processFilters m := by
    unfold buildFilterOptions
    rw [htr]
    simp
  refine ⟨hb, ?_⟩
  rw [hb]
  exact processFilters_includeDeleted_exact v ht m [] hnd hv

/-- Witness for the amended C8 at the concrete query
`includeDeleted = "true"`. -/
theorem truthy_includeDeleted_passthrough_witness :
    buildFilterOptions [("includeDeleted", JSVal.vStr "true")] =
      processFilters [("includeDeleted", JSVal.vStr "true")] ∧
    objLookup (buildFilterOptions [("includeDeleted", JSVal.vStr "true")])
      "includeDeleted" = some (FVal.exact (JSVal.vStr "true")) :=
  truthy_includeDeleted_passthrough
    [("includeDeleted", JSVal.vStr "true")] (JSVal.vStr "true")
    (by simp) rfl rfl

/-! ## Sort construction (server.js lines 426-434) -/

/-- `DatabaseUtils.buildSortOptions`: validate the order token against
`['asc', 'desc', '1', '-1']` (defaulting to `'desc'`), then produce the
single-field sort object `{ [sortBy]: 1 | -1 }`. -/
def buildSortOptions (sortBy : String) (sortOrder : String) :
    List (String × Int) :=
  let validSortOrders := ["asc", "desc", "1", "-1"]
  let order := if sortOrder ∈ validSortOrders then sortOrder else "desc"
  let sortValue : Int := if order = "asc" ∨ order = "1" then 1 else -1
  [(sortBy, sortValue)]

/-- Claim C6: for every field name and order token, `buildSortOptions`
returns the single-field sort spec mapping the field to `+1` exactly when
the token is `asc` or `1`, and to `-1` for `desc`, `-1`, and every token
outside the recognized set. -/
theorem buildSortOptions_spec (sortBy : String) (sortOrder : String) :
    buildSortOptions sortBy sortOrder =
      [(sortBy, if sortOrder = "asc" ∨ sortOrder = "1" then (1 : Int) else -1)] := by
  unfold buildSortOptions
  by_cases h1 : sortOrder = "asc"
  · subst h1; rfl
  · by_cases h2 : sortOrder = "1"
    · subst h2; rfl
    · by_cases h3 : sortOrder = "desc"
      · subst h3; rfl
      · by_cases h4 : sortOrder = "-1"
        · subst h4; rfl
        · have hmem : sortOrder ∉ ["asc", "desc", "1", "-1"] := by
            simp [h1, h2, h3, h4]
          simp [hmem, h1, h2]

/-! ## Error normalization (server.js lines 353-406) -/

/-- The shape of a store-level error inspected by
`DatabaseUtils.handleDatabaseError`: its `name`, its numeric `code`, the
field→message map of a validation error, the keys of `keyPattern` on a
duplicate-key error, and the `path` of a cast error. -/
structure StoreError where
  name : Option String
  code : Option Int
  errors : List (String × String)
  keyPatternKeys : List String
  path : Option String
  deriving DecidableEq

/-- The normalized error object returned by `handleDatabaseError`
(`errors` and `field` are present only on some variants). -/
structure NormalizedError where
  type : String
  message : String
  errors : Option (List (String × String))
  field : Option String
  statusCode : Nat
  deriving DecidableEq

/-- `DatabaseUtils.handleDatabaseError`, clause for clause from the
source: ValidationError, then duplicate key (code 11000, offending field =
first key of `keyPattern`), then CastError, then the two connection error
names, then the catch-all. -/
def handleDatabaseError (e : StoreError) : NormalizedError :=
  if e.name = some "ValidationError" then
    { type := "validation", message := "Validation failed",
      errors := some e.errors, field := none, statusCode := 400 }
  else if e.code = some 11000 then
    { type := "duplicate",
      message := (e.keyPatternKeys.head?.getD "undefined") ++ " already exists",
      errors := none, field := e.keyPatternKeys.head?, statusCode := 409 }
  else if e.name = some "CastError" then
    { type := "cast", message := "Invalid ID format",
      errors := none, field := e.path, statusCode := 400 }
  else if e.name = some "MongoNetworkError" ∨ e.name = some "MongoTimeoutError" then
    { type := "connection", message := "Database connection error",
      errors := none, field := none, statusCode := 503 }
  else
    { type := "unknown", message := "Database operation failed",
      errors := none, field := none, statusCode := 500 }

/-- Claim C7: `handleDatabaseError` returns exactly one of the five
taxonomy members with its stated status code, following the source's
match order: ValidationError → validation/400 with the field→message map;
otherwise code 11000 → duplicate/409 naming the offending field; otherwise
CastError → cast/400; otherwise MongoNetworkError or MongoTimeoutError →
connection/503; anything else → unknown/500. -/
theorem handleDatabaseError_taxonomy (e : StoreError) :
    ((handleDatabaseError e).type, (handleDatabaseError e).statusCode) ∈
      [("validation", 400), ("duplicate", 409), ("cast", 400),
        ("connection", 503), ("unknown", 500)] ∧
    (e.name = some "ValidationError" →
      handleDatabaseError e =
        { type := "validation", message := "Validation failed",
          errors := some e.errors, field := none, statusCode := 400 }) ∧
    (e.name ≠ some "ValidationError" → e.code = some 11000 →
      handleDatabaseError e =
        { type := "duplicate",
          message := (e.keyPatternKeys.head?.getD "undefined") ++ " already exists",
          errors := none, field := e.keyPatternKeys.head?, statusCode := 409 }) ∧
    (e.name ≠ some "ValidationError" → e.code ≠ some 11000 →
      e.name = some "CastError" →
      handleDatabaseError e =
        { type := "cast", message := "Invalid ID format",
          errors := none, field := e.path, statusCode := 400 }) ∧
    (e.name ≠ some "ValidationError" → e.code ≠ some 11000 →
      (e.name = some "MongoNetworkError" ∨ e.name = some "MongoTimeoutError") →
      handleDatabaseError e =
        { type := "connection", message := "Database connection error",
          errors := none, field := none, statusCode := 503 }) ∧
    (e.name ≠ some "ValidationError" → e.code ≠ some 11000 →
      e.name ≠ some "CastError" → e.name ≠ some "MongoNetworkError" →
      e.name ≠ some "MongoTimeoutError" →
      handleDatabaseError e =
        { type := "unknown", message := "Database operation failed",
          errors := none, field := none, statusCode := 500 }) := by
  unfold handleDatabaseError
  split_ifs with h1 h2 h3 h4
  · exact ⟨by simp, fun _ => rfl, fun hn _ => absurd h1 hn,
      fun hn _ _ => absurd h1 hn, fun hn _ _ => absurd h1 hn,
      fun hn _ _ _ _ => absurd h1 hn⟩
  · exact ⟨by simp, fun hn => absurd hn h1, fun _ _ => rfl,
      fun _ hc _ => absurd h2 hc, fun _ hc _ => absurd h2 hc,
      fun _ hc _ _ _ => absurd h2 hc⟩
  · exact ⟨by simp, fun hn => absurd hn h1, fun _ hc => absurd hc h2,
      fun _ _ _ => rfl,
      fun _ _ hor => by
        rcases hor with hor | hor <;> rw [hor] at h3 <;> simp at h3,
      fun _ _ hc _ _ => absurd h3 hc⟩
  · exact ⟨by simp, fun hn => absurd hn h1, fun _ hc => absurd hc h2,
      fun _ _ hc => absurd hc h3, fun _ _ _ => rfl,
      fun _ _ _ hn1 hn2 => by
        rcases h4 with h4 | h4
        · exact absurd h4 hn1
        · exact absurd h4 hn2⟩
  · exact ⟨by simp, fun hn => absurd hn h1, fun _ hc => absurd hc h2,
      fun _ _ hc => absurd hc h3, fun _ _ hor => absurd hor h4,
      fun _ _ _ _ _ => rfl⟩

/-- Witness for C7 at a concrete duplicate-key error on the field
`email`. -/
theorem handleDatabaseError_taxonomy_witness :
    handleDatabaseError
        { name := none, code := some 11000, errors := [],
          keyPatternKeys := ["email"], path := none } =
      { type := "duplicate", message := "email already exists",
        errors := none, field := some "email", statusCode := 409 } :=
  (handleDatabaseError_taxonomy
    { name := none, code := some 11000, errors := [],
      keyPatternKeys := ["email"], path := none }).2.2.1
    (by decide) (by decide)

/-! ## Pagination (server.js lines 411-421 and 544-559)

JS numbers reaching `buildPaginationOptions` are modelled by `Option Int`
(`none` is `NaN`); its inputs are either numbers or query strings. -/

/-- An input to `buildPaginationOptions`: an integer number, the number
`NaN` (e.g. from the route's own `parseInt(page)`), or a raw query
string. -/
inductive PgInput where
  | num (n : Int)
  | nan
  | str (s : String)
  deriving DecidableEq

/-- Whitespace skipped by `parseInt` before reading digits. -/
def isJsSpace (c : Char) : Bool :=
  decide (c = ' ' ∨ c = '\t' ∨ c = '\n' ∨ c = '\r')

def isHexDigitChar (c : Char) : Bool :=
  c.isDigit || (decide ('a' ≤ c) && decide (c ≤ 'f'))
    || (decide ('A' ≤ c) && decide (c ≤ 'F'))

def hexDigitVal (c : Char) : Nat :=
  if c.isDigit then c.toNat - 48
  else if decide ('a' ≤ c) && decide (c ≤ 'f') then c.toNat - 87
  else c.toNat - 55

def decDigitsVal (ds : List Char) : Nat :=
  ds.foldl (fun a c => a * 10 + (c.toNat - 48)) 0

def hexDigitsVal (ds : List Char) : Nat :=
  ds.foldl (fun a c => a * 16 + hexDigitVal c) 0

/-- `parseInt` after whitespace and sign: an optional `0x`/`0X` prefix
switches to hexadecimal; the longest digit prefix is read; no digits means
`NaN`. -/
def parseUnsignedJS : List Char → Option Nat
  | '0' :: c :: rest =>
    if c = 'x' ∨ c = 'X' then
      let ds := rest.takeWhile isHexDigitChar
      if ds = [] then none else some (hexDigitsVal ds)
    else
      some (decDigitsVal (('0' :: c :: rest).takeWhile Char.isDigit))
  | cs =>
    let ds := cs.takeWhile Char.isDigit
    if ds = [] then none else some (decDigitsVal ds)

/-- `parseInt(s)` for a string argument: skip leading whitespace, read an
optional sign, then the digit prefix; `none` is `NaN`. -/
def jsParseIntStr (s : String) : Option Int :=
  match s.toList.dropWhile isJsSpace with
  | '-' :: rest => (parseUnsignedJS rest).map (fun n => -(n : Int))
  | '+' :: rest => (parseUnsignedJS rest).map (fun n => (n : Int))
  | rest => (parseUnsignedJS rest).map (fun n => (n : Int))

/-- `parseInt` applied to a pagination input (an integer number parses to
itself; `NaN` stays `NaN`). -/
def parseIntJS : PgInput → Option Int
  | .num n => some n
  | .nan => none
  | .str s => jsParseIntStr s

/-- `Math.max` on JS numbers: `NaN` absorbs. -/
def jsMaxNum : Option Int → Option Int → Option Int
  | some a, some b => some (max a b)
  | _, _ => none

/-- `Math.min` on JS numbers: `NaN` absorbs. -/
def jsMinNum : Option Int → Option Int → Option Int
  | some a, some b => some (min a b)
  | _, _ => none

def jsAddNum : Option Int → Option Int → Option Int
  | some a, some b => some (a + b)
  | _, _ => none

def jsSubNum : Option Int → Option Int → Option Int
  | some a, some b => some (a - b)
  | _, _ => none

def jsMulNum : Option Int → Option Int → Option Int
  | some a, some b => some (a * b)
  | _, _ => none

/-- `a < b` on JS numbers: any comparison with `NaN` is false. -/
def jsLtNum : Option Int → Option Int → Bool
  | some a, some b => decide (a < b)
  | _, _ => false

/-- The `{ page, limit, skip }` object built by
`DatabaseUtils.buildPaginationOptions`. -/
structure PaginationOptions where
  page : Option Int
  limit : Option Int
  skip : Option Int
  deriving DecidableEq

/-- `DatabaseUtils.buildPaginationOptions(page, limit)` with the default
`maxLimit = 100` (no caller ever overrides it):
`pageNum = Math.max(1, parseInt(page))`,
`limitNum = Math.min(100, Math.max(1, parseInt(limit)))`,
`skip = (pageNum - 1) * limitNum`. -/
def buildPaginationOptions (page limit : PgInput) : PaginationOptions :=
  let pageNum := jsMaxNum (some 1) (parseIntJS page)
  let limitNum := jsMinNum (some 100) (jsMaxNum (some 1) (parseIntJS limit))
  let skip := jsMulNum (jsSubNum pageNum (some 1)) limitNum
  { page := pageNum, limit := limitNum, skip := skip }

/-- The pagination metadata object produced by
`DatabaseUtils.executePaginatedQuery`; `none` in `nextPage`/`prevPage` is
JSON `null`. -/
structure PaginationMeta where
  currentPage : Option Int
  totalPages : Option Int
  totalCount : Nat
  limit : Option Int
  hasNextPage : Bool
  hasPrevPage : Bool
  nextPage : Option Int
  prevPage : Option Int
  deriving DecidableEq

/-- `Math.ceil(totalCount / limit)` for a natural count and a JS-number
limit; `buildPaginationOptions` only ever yields a limit in `[1, 100]` (or
`NaN`), where the `(t + l - 1) / l` formula is exactly the ceiling. -/
def jsCeilNatDiv (t : Nat) (l : Option Int) : Option Int :=
  match l with
  | none => none
  | some li => some (Int.ofNat ((t + li.toNat - 1) / li.toNat))

/-- The metadata computation of `executePaginatedQuery` (lines 544-559):
the data fetch itself is external to this model; only `totalCount` and the
request's page/limit feed the metadata. -/
def executePaginatedMeta (totalCount : Nat) (page limit : PgInput) :
    PaginationMeta :=
  let po := buildPaginationOptions page limit
  let totalPages := jsCeilNatDiv totalCount po.limit
  let hasNextPage := jsLtNum po.page totalPages
  let hasPrevPage := jsLtNum (some 1) po.page
  { currentPage := po.page
    totalPages := totalPages
    totalCount := totalCount
    limit := po.limit
    hasNextPage := hasNextPage
    hasPrevPage := hasPrevPage
    nextPage := if hasNextPage then jsAddNum po.page (some 1) else none
    prevPage := if hasPrevPage then jsSubNum po.page (some 1) else none }

/-- Claim C5: for integer inputs, `buildPaginationOptions` clamps
`page` to `max(1, page)`, `limit` to `min(100, max(1, limit))` and skips
`(page − 1) × limit` (so limit 10 / page 3 skips 20, and limit 1000 is
clamped to 100); and the metadata of `executePaginatedQuery` satisfies
`totalPages = ceil(totalCount / limit)`, `hasNextPage = currentPage <
totalPages`, `hasPrevPage = currentPage > 1`, with `nextPage`/`prevPage`
set accordingly or null. -/
theorem pagination_clamps_and_metadata :
    (∀ p l : Int,
      buildPaginationOptions (.num p) (.num l) =
        { page := some (max 1 p), limit := some (min 100 (max 1 l)),
          skip := some ((max 1 p - 1) * min 100 (max 1 l)) }) ∧
    (buildPaginationOptions (.num 3) (.num 10)).skip = some 20 ∧
    (buildPaginationOptions (.num 1) (.num 1000)).limit = some 100 ∧
    (∀ (tc : Nat) (p l : Int),
      executePaginatedMeta tc (.num p) (.num l) =
        { currentPage := some (max 1 p)
          totalPages := some (Int.ofNat
            ((tc + (min 100 (max 1 l)).toNat - 1) / (min 100 (max 1 l)).toNat))
          totalCount := tc
          limit := some (min 100 (max 1 l))
          hasNextPage := decide (max 1 p < Int.ofNat
            ((tc + (min 100 (max 1 l)).toNat - 1) / (min 100 (max 1 l)).toNat))
          hasPrevPage := decide (1 < max 1 p)
          nextPage := if max 1 p < Int.ofNat
              ((tc + (min 100 (max 1 l)).toNat - 1) / (min 100 (max 1 l)).toNat)
            then some (max 1 p + 1) else none
          prevPage := if 1 < max 1 p then some (max 1 p - 1) else none }) := by
  refine ⟨fun p l => rfl, rfl, rfl, fun tc p l => ?_⟩
  unfold executePaginatedMeta buildPaginationOptions
  simp only [parseIntJS, jsMaxNum, jsMinNum, jsSubNum, jsMulNum, jsAddNum,
    jsCeilNatDiv, jsLtNum]
  simp [decide_eq_true_eq]

/-- Claim C10: a non-numeric page/limit string such as `"abc"` defeats the
clamps — `parseInt` yields `NaN` and `buildPaginationOptions` then returns
`NaN` for page, limit and skip. -/
theorem nonnumeric_pagination_is_nan :
    jsParseIntStr "abc" = none ∧
    buildPaginationOptions (.str "abc") (.str "abc") =
      { page := none, limit := none, skip := none } :=
  ⟨rfl, rfl⟩

/-! ## The Task document (src/unnamed/part_001)

Timestamps are milliseconds since the epoch (`Nat`); `none` in an
`Option Nat` date field is the stored `null`. -/

/-- JavaScript `String.prototype.trim` (and the Mongoose `trim: true`
setter): strip leading and trailing whitespace.  Defined structurally over
the character list so that concrete instances evaluate. -/
def jsTrim (s : String) : String :=
  String.mk
    (((s.data.dropWhile Char.isWhitespace).reverse.dropWhile
      Char.isWhitespace).reverse)

/-- The Mongoose `lowercase: true` setter (`String.prototype.toLowerCase`),
structurally over the character list. -/
def jsToLower (s : String) : String :=
  String.mk (s.data.map Char.toLower)

/-- A stored task document. -/
structure Task where
  id : String
  title : String
  description : String
  completed : Bool
  priority : String
  dueDate : Option Nat
  tags : List String
  completedAt : Option Nat
  isDeleted : Bool
  deletedAt : Option Nat
  createdAt : Nat
  updatedAt : Nat
  versionKey : Nat
  deriving DecidableEq

/-- A partial update: `some x` means the field is present in the update
object (for nullable fields, with the value `x`, itself possibly `null`).
This is the shape built by the PUT route, the soft-delete route and the
bulk-update body. -/
structure UpdateData where
  completed : Option Bool
  title : Option String
  description : Option String
  priority : Option String
  dueDate : Option (Option Nat)
  tags : Option (List String)
  completedAt : Option (Option Nat)
  isDeleted : Option Bool
  deletedAt : Option (Option Nat)
  deriving DecidableEq

/-- The empty update object. -/
def emptyUpdate : UpdateData :=
  { completed := none, title := none, description := none, priority := none,
    dueDate := none, tags := none, completedAt := none, isDeleted := none,
    deletedAt := none }

/-- Applying an update's fields to a document (`$set` semantics: present
fields overwrite, absent fields are untouched). -/
def applyUpdateData (d : Task) (u : UpdateData) : Task :=
  { d with
    completed := u.completed.getD d.completed
    title := u.title.getD d.title
    description := u.description.getD d.description
    priority := u.priority.getD d.priority
    dueDate := u.dueDate.getD d.dueDate
    tags := u.tags.getD d.tags
    completedAt := u.completedAt.getD d.completedAt
    isDeleted := u.isDeleted.getD d.isDeleted
    deletedAt := u.deletedAt.getD d.deletedAt }

/-- An update object as seen by the query middleware: the top-level fields
and the optional `$set` sub-object.  The routes in server.js always pass
plain top-level fields and never a `$set` key. -/
structure UpdateObj where
  fields : UpdateData
  setObj : Option UpdateData
  deriving DecidableEq

/-- The `pre(['updateOne','findOneAndUpdate'])` middleware (part_001 lines
163-176): it acts only when `update.$set && update.$set.completed !==
undefined`, assigning `update.$set.completedAt = new Date()` when the new
`completed` is truthy and `null` otherwise.  (`this.getUpdate()` in a pre
hook returns the update as passed by the caller, before casting, so a
top-level `completed` is not seen.)  `Task.updateMany` is not in the
middleware's operation list at all. -/
def preUpdateHook (u : UpdateObj) (now : Nat) : UpdateObj :=
  match u.setObj with
  | some s =>
    match s.completed with
    | some b =>
      let s2 := { s with completedAt := some (if b then some now else none) }
      { u with setObj := some s2 }
    | none => u
  | none => u

/-- Applying a (possibly hook-rewritten) update object to a document. -/
def applyUpdateObj (d : Task) (u : UpdateObj) : Task :=
  let d1 := applyUpdateData d u.fields
  match u.setObj with
  | some s => applyUpdateData d1 s
  | none => d1

/-- The `pre('save')` middleware (part_001 lines 142-158): when the
`completed` path was modified, derive `completedAt`; then drop tags that
are empty after trimming.  (String setters have already trimmed and
lower-cased each tag when the field was assigned.) -/
def preSave (t : Task) (modifiedCompleted : Bool) (now : Nat) : Task :=
  let t1 :=
    if modifiedCompleted then
      if t.completed && t.completedAt = none then
        { t with completedAt := some now }
      else if !t.completed then { t with completedAt := none }
      else t
    else t
  { t1 with tags := t1.tags.filter (fun tag => jsTrim tag ≠ "") }

/-- `Task.updateMany(filter, update)`: apply the raw update to every
matching document; no schema update middleware runs (the hook above is
registered only for `updateOne` and `findOneAndUpdate`). -/
def updateMany (s : List Task) (pred : Task → Bool) (u : UpdateData) :
    List Task :=
  s.map (fun d => if pred d then applyUpdateData d u else d)

/-! ## Claim C1 -/

/-- A pending task as stored after `POST /tasks {title: "Buy milk"}`. -/
def pendingTask : Task :=
  { id := "t1", title := "Buy milk", description := "", completed := false,
    priority := "medium", dueDate := none, tags := [], completedAt := none,
    isDeleted := false, deletedAt := none, createdAt := 0, updatedAt := 0,
    versionKey := 0 }

/-- The bulk-update body `filters.update = { completed: true }`. -/
def bulkCompleteUpdate : UpdateData := { emptyUpdate with completed := some true }

/-- Claim C1 fails on the bulk path: `POST /tasks/bulk` with
`operation=update` and `filters.update = {completed: true}` calls
`Task.updateMany(buildFilterOptions({}), {completed: true})`; the empty
`where` builds the filter `{isDeleted: {$ne: true}}`, the update middleware
does not run for `updateMany`, and the matched pending task ends up with
`completed = true` but `completedAt = null`, breaking the claimed
invariant. -/
theorem bulk_update_leaves_completedAt_null :
    buildFilterOptions [] = [("isDeleted", FVal.neTrue)] ∧
    updateMany [pendingTask] (fun d => !d.isDeleted) bulkCompleteUpdate =
      [{ pendingTask with completed := true, completedAt := none }] ∧
    (preUpdateHook { fields := bulkCompleteUpdate, setObj := none } 99) =
      { fields := bulkCompleteUpdate, setObj := none } :=
  ⟨rfl, rfl, rfl⟩

/-! ## Claim C3 -/

/-- The string setters of the `tags` element schema (`trim: true,
lowercase: true`), run whenever the path is assigned — on save and on
update casting alike. -/
def castTag (s : String) : String := jsToLower (jsTrim s)

/-- The element validator `maxlength: 50`, enforced on updates via
`runValidators: true`. -/
def tagsValid (tags : List String) : Bool :=
  tags.all (fun t => t.length ≤ 50)

/-- The `tags` portion of `PUT /tasks/:id` (server.js lines 112-126):
`updateData.tags = Array.isArray(tags) ? tags : [tags]`, then
`findOneAndUpdate(..., updateData, { new: true, runValidators: true })`.
Setters cast each element, validators check the length; the empty-tag
filter of `pre('save')` does not run on this path.  `none` models a
rejected write (validation failure → 400, document unchanged). -/
def putTagsOnDoc (d : Task) (bodyTags : List String) : Option Task :=
  let cast := bodyTags.map castTag
  if tagsValid cast then some { d with tags := cast } else none

/-- A stored task with one legitimate tag. -/
def taggedTask : Task := { pendingTask with id := "t3", tags := ["home"] }

/-- Claim C3 fails on the PUT path: `PUT /tasks/:id {tags: [" "]}` trims
the element to the empty string, passes the maxlength validator, and is
stored — the stored `tags` array contains a blank string.  The save path,
by contrast, drops it (`pre('save')` filter), which is the rule the claim
generalizes to every write. -/
theorem put_update_stores_blank_tag :
    putTagsOnDoc taggedTask [" "] = some { taggedTask with tags := [""] } ∧
    "" ∈ ({ taggedTask with tags := [""] } : Task).tags ∧
    (preSave { taggedTask with tags := [" "] } false 0).tags = [] :=
  ⟨by decide, by simp, by decide⟩

/-! ## Id-addressed routes (server.js lines 102-216)

A store is a list of task documents; the `_id` values are assumed valid
(the routes' `isValidObjectId` guard is upstream of everything modelled
here).  `findOne`/`findOneAndUpdate` filter on
`{ _id: id, isDeleted: { $ne: true } }`. -/

/-- `Task.findOne({ _id: id, isDeleted: { $ne: true } })`. -/
def findOneActive (s : List Task) (tid : String) : Option Task :=
  s.find? (fun d => d.id = tid && !d.isDeleted)

/-- Replace (in place) the first document matching the active-id filter. -/
def replaceFirstActive (s : List Task) (tid : String) (f : Task → Task) :
    List Task :=
  match s with
  | [] => []
  | d :: rest =>
    if d.id = tid && !d.isDeleted then f d :: rest
    else d :: replaceFirstActive rest tid f

/-- `Task.findOneAndUpdate({ _id: id, isDeleted: { $ne: true } }, upd,
{ new: true })`: `none` and an unchanged store when no active document has
the id, otherwise the updated document and the updated store. -/
def findOneAndUpdateActive (s : List Task) (tid : String) (f : Task → Task) :
    Option Task × List Task :=
  match findOneActive s tid with
  | none => (none, s)
  | some d => (some (f d), replaceFirstActive s tid f)

/-- Outcome of a route (the claims only need the 404/403/success split). -/
inductive RouteResult where
  | ok (t : Task)
  | notFound
  | forbidden
  deriving DecidableEq

/-- `GET /tasks/:id` (lines 193-216). -/
def getTaskRoute (s : List Task) (tid : String) : RouteResult :=
  match findOneActive s tid with
  | some t => .ok t
  | none => .notFound

/-- `PUT /tasks/:id` (lines 103-142): build `updateData` from the body
(top level, never `$set`), run the update middleware, `findOneAndUpdate`
on the active-id filter, 404 when nothing matched. -/
def putTaskRoute (s : List Task) (tid : String) (body : UpdateData)
    (now : Nat) : RouteResult × List Task :=
  let u := preUpdateHook { fields := body, setObj := none } now
  match findOneAndUpdateActive s tid (fun d => applyUpdateObj d u) with
  | (some d, s2) => (.ok d, s2)
  | (none, s2) => (.notFound, s2)

/-- The soft-delete update `{ isDeleted: true, deletedAt: new Date() }`. -/
def softDeleteUpdate (now : Nat) : UpdateData :=
  { emptyUpdate with isDeleted := some true, deletedAt := some (some now) }

/-- Remove the first document with the given id (`findByIdAndDelete`). -/
def removeFirstById : List Task → String → List Task
  | [], _ => []
  | d :: rest, tid => if d.id = tid then rest else d :: removeFirstById rest tid

/-- `DELETE /tasks/:id` (lines 145-188): with `permanent=true`, forbidden
in production, otherwise `findByIdAndDelete(id)` — no `isDeleted` filter;
without it, a soft delete through `findOneAndUpdate` on the active-id
filter.  404 when nothing matched. -/
def deleteTaskRoute (s : List Task) (tid : String) (permanent : Bool)
    (isProduction : Bool) (now : Nat) : RouteResult × List Task :=
  if permanent then
    if isProduction then (.forbidden, s)
    else
      match s.find? (fun d => d.id = tid) with
      | none => (.notFound, s)
      | some d => (.ok d, removeFirstById s tid)
  else
    let u := preUpdateHook { fields := softDeleteUpdate now, setObj := none } now
    match findOneAndUpdateActive s tid (fun d => applyUpdateObj d u) with
    | (some d, s2) => (.ok d, s2)
    | (none, s2) => (.notFound, s2)

/-! ### Store lemmas -/

/-- In a store with unique ids, a soft-deleted document's id matches no
document of the active-id filter. -/
theorem findOneActive_eq_none (s : List Task) (d : Task) (tid : String)
    (hnd : (s.map Task.id).Nodup) (hmem : d ∈ s) (hid : d.id = tid)
    (hdel : d.isDeleted = true) :
    findOneActive s tid = none := by
  apply List.find?_eq_none.mpr
  intro x hx hpx
  have hxid : x.id = tid := by
    have := of_decide_eq_true (Bool.and_elim_left hpx)
    exact this
  have hxd : x = d :=
    List.inj_on_of_nodup_map hnd hx hmem (hxid.trans hid.symm)
  rw [hxd, hdel] at hpx
  simp at hpx

/-- In a store with unique ids, `find?` on the id alone returns the member
with that id. -/
theorem find_by_id_eq_some (s : List Task) (d : Task) (tid : String)
    (hnd : (s.map Task.id).Nodup) (hmem : d ∈ s) (hid : d.id = tid) :
    s.find? (fun x => x.id = tid) = some d := by
  induction s with
  | nil => cases hmem
  | cons x rest ih =>
    by_cases hx : x.id = tid
    · have hxd : x = d :=
        List.inj_on_of_nodup_map hnd (List.mem_cons_self x rest) hmem
          (hx.trans hid.symm)
      simp [List.find?, hxd, hid]
    · have hmem' : d ∈ rest := by
        rcases List.mem_cons.mp hmem with h | h
        · exact absurd (h ▸ hid) hx
        · exact h
      have hnd' : (rest.map Task.id).Nodup := by
        rw [List.map_cons, List.nodup_cons] at hnd
        exact hnd.2
      simp only [List.find?, decide_eq_false hx]
      exact ih hnd' hmem'

/-! ## Claim C9 -/

/-- Claim C9: every id-addressed route that filters on the active-id
predicate — `GET /tasks/:id`, `PUT /tasks/:id`, and the non-permanent
`DELETE /tasks/:id` — answers 404 for a soft-deleted task and leaves the
store unchanged (so a second soft delete of the same task 404s); only
`DELETE` with `permanent=true` outside production addresses the
soft-deleted document by id (and in production it is forbidden). -/
theorem soft_deleted_id_routes_404 (s : List Task) (d : Task) (tid : String)
    (hnd : (s.map Task.id).Nodup) (hmem : d ∈ s) (hid : d.id = tid)
    (hdel : d.isDeleted = true) :
    getTaskRoute s tid = .notFound ∧
    (∀ body now, putTaskRoute s tid body now = (.notFound, s)) ∧
    (∀ isProd now, deleteTaskRoute s tid false isProd now = (.notFound, s)) ∧
    (∀ now, deleteTaskRoute s tid true false now =
      (.ok d, removeFirstById s tid)) ∧
    (∀ now, deleteTaskRoute s tid true true now = (.forbidden, s)) := by
  have hnone : findOneActive s tid = none :=
    findOneActive_eq_none s d tid hnd hmem hid hdel
  refine ⟨?_, ?_, ?_, ?_, ?_⟩
  · unfold getTaskRoute
    rw [hnone]
  · intro body now
    unfold putTaskRoute findOneAndUpdateActive
    rw [hnone]
  · intro isProd now
    unfold deleteTaskRoute findOneAndUpdateActive
    rw [hnone]
    simp
  · intro now
    unfold deleteTaskRoute
    rw [find_by_id_eq_some s d tid hnd hmem hid]
    simp
  · intro now
    unfold deleteTaskRoute
    simp

/-- A soft-deleted stored task. -/
def deletedTask : Task :=
  { pendingTask with id := "t9", isDeleted := true, deletedAt := some 50 }

/-- Witness for C9 on the one-document store holding `deletedTask`. -/
theorem soft_deleted_id_routes_404_witness :
    getTaskRoute [deletedTask] "t9" = .notFound ∧
    deleteTaskRoute [deletedTask] "t9" true false 60 =
      (.ok deletedTask, removeFirstById [deletedTask] "t9") := by
  have h := soft_deleted_id_routes_404 [deletedTask] deletedTask "t9"
    (by simp) (by simp) (by decide) (by decide)
  exact ⟨h.1, h.2.2.2.1 60⟩

/-! ## JSON serialization (part_001 lines 84-115, 241-260)

`res.json(task)` stringifies `task.toJSON()`.  Mongoose builds the `ret`
object from every stored path (plus the virtuals when the `virtuals`
option is on) and then applies the configured `transform`, if any. -/

/-- A value of the serialized representation: `jDate` is still a `Date`
object (later rendered by `JSON.stringify` via `Date.prototype.toJSON`),
`jStr` is already a string. -/
inductive JValue where
  | jNull
  | jBool (b : Bool)
  | jNum (n : Int)
  | jStr (s : String)
  | jDate (ms : Nat)
  | jStrArr (xs : List String)
  deriving DecidableEq

/-- The `ret` object handed to the `toJSON` transform. -/
abbrev RetMap := List (String × JValue)

def retLookup : RetMap → String → Option JValue
  | [], _ => none
  | (k, v) :: rest, key => if k = key then some v else retLookup rest key

/-- `delete ret[key]`. -/
def retDelete (m : RetMap) (key : String) : RetMap :=
  m.filter (fun p => p.1 ≠ key)

/-! ### ISO-8601 rendering of a millisecond timestamp
(`Date.prototype.toISOString`), via the standard civil-from-days
conversion. -/

/-- Gregorian (year, month, day) of a day count since 1970-01-01. -/
def civilFromDays (days : Nat) : Nat × Nat × Nat :=
  let z := days + 719468
  let era := z / 146097
  let doe := z % 146097
  let yoe := (doe - doe / 1460 + doe / 36524 - doe / 146096) / 365
  let y := yoe + era * 400
  let doy := doe - (365 * yoe + yoe / 4 - yoe / 100)
  let mp := (5 * doy + 2) / 153
  let dom := doy - (153 * mp + 2) / 5 + 1
  let mon := if mp < 10 then mp + 3 else mp - 9
  if mon ≤ 2 then (y + 1, mon, dom) else (y, mon, dom)

def pad2 (n : Nat) : String :=
  if n < 10 then "0" ++ toString n else toString n

def pad3 (n : Nat) : String :=
  if n < 10 then "00" ++ toString n
  else if n < 100 then "0" ++ toString n
  else toString n

def pad4 (n : Nat) : String :=
  if n < 10 then "000" ++ toString n
  else if n < 100 then "00" ++ toString n
  else if n < 1000 then "0" ++ toString n
  else toString n

/-- `new Date(ms).toISOString()` for a non-negative millisecond
timestamp. -/
def toISOString (ms : Nat) : String :=
  let days := ms / 86400000
  let rem := ms % 86400000
  let hh := rem / 3600000
  let mi := rem % 3600000 / 60000
  let ss := rem % 60000 / 1000
  let mil := rem % 1000
  match civilFromDays days with
  | (y, mon, dom) =>
    pad4 y ++ "-" ++ pad2 mon ++ "-" ++ pad2 dom ++ "T" ++ pad2 hh ++ ":" ++
      pad2 mi ++ ":" ++ pad2 ss ++ "." ++ pad3 mil ++ "Z"

/-- `if (ret[key]) ret[key] = ret[key].toISOString()` — only a present
`Date` value is formatted (a stored `null` is falsy and left alone). -/
def retFormatDate (m : RetMap) (key : String) : RetMap :=
  m.map (fun p =>
    if p.1 = key then
      (p.1, match p.2 with
            | .jDate ms => .jStr (toISOString ms)
            | v => v)
    else p)

/-! ### Virtual properties (part_001 lines 241-256) -/

/-- `isOverdue`: `this.dueDate && this.dueDate < new Date() &&
!this.completed` — JS returns the falsy `dueDate` itself (`null`) when the
due date is absent. -/
def isOverdueV (t : Task) (now : Nat) : JValue :=
  match t.dueDate with
  | none => .jNull
  | some due => .jBool (decide (due < now) && !t.completed)

/-- `timeUntilDue`: `null` without a due date, otherwise the non-negative
remaining time in milliseconds. -/
def timeUntilDueV (t : Task) (now : Nat) : JValue :=
  match t.dueDate with
  | none => .jNull
  | some due =>
    let timeDiff : Int := (due : Int) - (now : Int)
    .jNum (if timeDiff > 0 then timeDiff else 0)

/-- `daysSinceCreated`: `Math.floor((now - createdAt) / 86400000)`. -/
def daysSinceCreatedV (t : Task) (now : Nat) : JValue :=
  .jNum (Int.fdiv ((now : Int) - (t.createdAt : Int)) 86400000)

/-- The `ret` object for a document: every stored path, then — when the
`virtuals` option is on — the virtual properties (including Mongoose's
default `id` virtual). -/
def taskRetMap (t : Task) (now : Nat) (withVirtuals : Bool) : RetMap :=
  [("_id", .jStr t.id),
   ("title", .jStr t.title),
   ("description", .jStr t.description),
   ("completed", .jBool t.completed),
   ("priority", .jStr t.priority),
   ("dueDate", match t.dueDate with | some ms => .jDate ms | none => .jNull),
   ("tags", .jStrArr t.tags),
   ("completedAt",
     match t.completedAt with | some ms => .jDate ms | none => .jNull),
   ("isDeleted", .jBool t.isDeleted),
   ("deletedAt",
     match t.deletedAt with | some ms => .jDate ms | none => .jNull),
   ("createdAt", .jDate t.createdAt),
   ("updatedAt", .jDate t.updatedAt),
   ("__v", .jNum t.versionKey)] ++
  (if withVirtuals then
    [("isOverdue", isOverdueV t now),
     ("timeUntilDue", timeUntilDueV t now),
     ("daysSinceCreated", daysSinceCreatedV t now),
     ("id", .jStr t.id)]
  else [])

/-- The transform written in the schema options (lines 85-106): delete the
internal fields, then format the four date fields as ISO strings. -/
def taskToJSONTransform (ret : RetMap) : RetMap :=
  let r1 := retDelete ret "__v"
  let r2 := retDelete r1 "isDeleted"
  let r3 := retDelete r2 "deletedAt"
  let r4 := retFormatDate r3 "createdAt"
  let r5 := retFormatDate r4 "updatedAt"
  let r6 := retFormatDate r5 "dueDate"
  retFormatDate r6 "completedAt"

/-- The schema-level `toJSON` options. -/
structure ToJSONOptions where
  virtuals : Bool
  transform : Option (RetMap → RetMap)

/-- The options given when the schema is created (lines 84-107): a
transform, no `virtuals` flag. -/
def schemaCreationToJSON : ToJSONOptions :=
  { virtuals := false, transform := some taskToJSONTransform }

/-- `Schema.prototype.set('toJSON', value)` assigns
`schema.options.toJSON = value` wholesale — the previous options object,
transform included, is discarded. -/
def schemaSetToJSON (_old replacement : ToJSONOptions) : ToJSONOptions :=
  replacement

/-- The effective options after line 259,
`taskSchema.set('toJSON', { virtuals: true })`: virtuals on, and no
transform any more. -/
def taskToJSONOptions : ToJSONOptions :=
  schemaSetToJSON schemaCreationToJSON { virtuals := true, transform := none }

/-- `task.toJSON()` under the schema's effective options. -/
def taskToJSON (t : Task) (now : Nat) : RetMap :=
  let ret := taskRetMap t now taskToJSONOptions.virtuals
  match taskToJSONOptions.transform with
  | some f => f ret
  | none => ret

/-! ## Claim C2 -/

/-- A completed, soft-deleted task with every date field populated. -/
def richTask : Task :=
  { id := "a1", title := "t", description := "", completed := true,
    priority := "low", dueDate := some 500, tags := ["x"],
    completedAt := some 300, isDeleted := true, deletedAt := some 400,
    createdAt := 100, updatedAt := 400, versionKey := 0 }

/-- Claim C2 fails: `taskSchema.set('toJSON', { virtuals: true })`
replaces the whole `toJSON` options object, so the transform of lines
84-107 never runs — the serialized representation still carries
`isDeleted`, `deletedAt` and `__v` (the virtuals are present, and dates
are only turned into ISO strings later by `JSON.stringify`).  Had the
creation-time transform survived, it would have stripped the internal
fields and ISO-formatted the dates, as the last two conjuncts show. -/
theorem toJSON_exposes_internal_fields :
    retLookup (taskToJSON richTask 1000) "isDeleted" = some (.jBool true) ∧
    retLookup (taskToJSON richTask 1000) "deletedAt" = some (.jDate 400) ∧
    retLookup (taskToJSON richTask 1000) "__v" = some (.jNum 0) ∧
    retLookup (taskToJSON richTask 1000) "isOverdue" = some (.jBool false) ∧
    retLookup (taskToJSONTransform (taskRetMap richTask 1000 true))
      "isDeleted" = none ∧
    retLookup (taskToJSONTransform (taskRetMap richTask 1000 true))
      "createdAt" = some (.jStr "1970-01-01T00:00:00.100Z") :=
  ⟨rfl, rfl, rfl, rfl, rfl, by decide⟩

end TaskApp
